import Mathlib

set_option maxHeartbeats 1000000

namespace RTBackend

/-! # Shallow embedding of the rt07-backend dues / balance / event core

Data model and operations are translated from the repository sources:
`src/src/utils/constants.ts`, `src/src/models/iuran.model.ts`,
`src/src/models/event.model.ts`, `src/src/models/settings.model.ts`,
`src/src/controller/keuangan.controller.ts`, `src/src/controller/iuran.controller.ts`,
`src/src/controller/event.controller.ts`, and the controller revisions in
`src/unnamed/part_005`, `src/unnamed/part_007`, `src/unnamed/part_010`.

Monetary amounts are stored as decimal strings in the database and converted
with `Number(...)` before any arithmetic; the embedding models the numeric
value directly as `Int`.  Document ids are modelled as `Nat`; MongoDB
timestamps as `Nat`.  The uploads directory is modelled as a list of stored
file urls. -/

/-- `IURAN_STATUS` from src/src/utils/constants.ts. -/
inductive IuranStatus
  | unpaid
  | pending
  | paid
  | rejected
deriving DecidableEq, Repr

/-- The `type` field of a dues record: `"regular"` or `"custom"`. -/
inductive IuranType
  | regular
  | custom
deriving DecidableEq, Repr

/-- `ROLES` from src/src/utils/constants.ts. -/
inductive Role
  | admin
  | rt
  | rw
  | bendahara
  | sekretaris
  | satpam
  | warga
deriving DecidableEq, Repr

/-- `USER_STATUS` (`active` / `inactive` / `away`), as used by the
auth controller revision in src/unnamed/part_007. -/
inductive UserStatus
  | active
  | inactive
  | away
deriving DecidableEq, Repr

/-- A dues record (`Iuran`), fields as created and read by the controllers
(src/src/models/iuran.model.ts plus the fields the controllers store:
`type`, `is_imported`, `recorded_by`, `payment_date`, `payment_method`). -/
structure Iuran where
  id : Nat
  user : Nat
  period : String
  amount : Int
  status : IuranStatus
  type : IuranType := IuranType.regular
  proof_image_url : Option String := none
  submitted_at : Option Nat := none
  confirmed_at : Option Nat := none
  confirmed_by : Option Nat := none
  recorded_by : Option Nat := none
  payment_date : Option Nat := none
  payment_method : Option String := none
  note : Option String := none
  is_imported : Bool := false
deriving DecidableEq, Repr

/-- A resident (`User`), from src/unnamed/part_013 (user model with
lifecycle status and soft-delete flags). -/
structure User where
  id : Nat
  email : String
  username : String
  role : Role
  address : Option String := none
  status : UserStatus := UserStatus.active
  isDeleted : Bool := false
  deletedAt : Option Nat := none
  image_url : Option String := none
deriving DecidableEq, Repr

/-- Event lifecycle status, from src/src/models/event.model.ts. -/
inductive EventStatus
  | planning
  | active
  | completed
deriving DecidableEq, Repr

/-- A donation line of an event, from src/src/models/event.model.ts. -/
structure Donation where
  donor_name : String
  amount : Int
  date : Nat
deriving DecidableEq, Repr

/-- An expense line of an event, from src/src/models/event.model.ts
(the persisted schema has no category field; the controller validates a
category but the schema drops it). -/
structure EventExpense where
  description : String
  amount : Int
  date : Nat
  proof_image_urls : List String := []
deriving DecidableEq, Repr

/-- A community event, from src/src/models/event.model.ts.  The derived
totals are stored as strings in the database; their numeric values are
modelled as `Int`. -/
structure Event where
  id : Nat
  name : String
  slug : String
  description : String
  date : Nat
  donations : List Donation
  expenses : List EventExpense
  total_donations : Int
  total_expenses : Int
  balance : Int
  status : EventStatus
  completed_at : Option Nat := none
  created_by : Nat
deriving DecidableEq, Repr

/-- A line item of an expense record, from src/unnamed/part_012. -/
structure PengeluaranItem where
  name : String
  price : Int
  image_url : Option String := none
deriving DecidableEq, Repr

/-- A standalone expense record (`Pengeluaran`), from src/unnamed/part_012. -/
structure Pengeluaran where
  id : Nat
  title : String
  slug : String
  items : List PengeluaranItem
  total : Int
  created_by : Nat
deriving DecidableEq, Repr

/-- The document store: one collection per model, the generic key-value
settings store (src/src/models/settings.model.ts, values modelled as the
numeric values actually stored there), the uploads directory, and id
allocation counters for document creation. -/
structure DB where
  users : List User
  iurans : List Iuran
  events : List Event
  pengeluarans : List Pengeluaran
  settings : List (String × Int)
  files : List String
  nextUserId : Nat := 0
  nextIuranId : Nat := 0
  nextPengeluaranId : Nat := 0
deriving DecidableEq, Repr

/-- `SETTINGS_KEYS.INITIAL_BALANCE` from src/unnamed/part_010. -/
def SETTINGS_KEY_INITIAL_BALANCE : String := "initial_balance"

/-- `getSettingValue(key, defaultValue)` from src/unnamed/part_010:
`findOne({key})`, returning the stored value or the default. -/
def getSettingValue (settings : List (String × Int)) (key : String)
    (defaultValue : Int) : Int :=
  match settings.find? (fun kv => kv.1 == key) with
  | some kv => kv.2
  | none => defaultValue

/-- `getCurrentBalance()` from src/src/controller/keuangan.controller.ts
lines 14-63: initial balance setting (default 0), plus the aggregate sum of
amounts of paid non-imported dues, plus a reduce over completed events of
`total_donations`, minus the aggregate sum of expense totals. -/
def getCurrentBalance (db : DB) : Int :=
  let initialBalance := getSettingValue db.settings SETTINGS_KEY_INITIAL_BALANCE 0
  let totalIuranIncome :=
    ((db.iurans.filter
        (fun i => i.status == IuranStatus.paid && !i.is_imported)).map
      (fun i => i.amount)).sum
  let completedEvents := db.events.filter (fun e => e.status == EventStatus.completed)
  let totalEventDonations :=
    completedEvents.foldl (fun sum e => sum + e.total_donations) 0
  let totalIncome := totalIuranIncome + totalEventDonations
  let totalExpense := (db.pengeluarans.map (fun p => p.total)).sum
  initialBalance + totalIncome - totalExpense

/-- The balance formula exactly as the specification words it:
administrator-set `initial_balance` (0 when unset) + the sum of amounts of
paid, non-imported dues records + the sum of `total_donations` over
completed events, minus the sum of the `total` field over all expense
records. -/
def specCurrentBalance (db : DB) : Int :=
  getSettingValue db.settings SETTINGS_KEY_INITIAL_BALANCE 0
    + ((db.iurans.filter
          (fun i => i.status == IuranStatus.paid && !i.is_imported)).map
        (fun i => i.amount)).sum
    + ((db.events.filter (fun e => e.status == EventStatus.completed)).map
        (fun e => e.total_donations)).sum
    - (db.pengeluarans.map (fun p => p.total)).sum

lemma foldl_add_eq_sum_map {α : Type} (f : α → Int) (l : List α) (a : Int) :
    l.foldl (fun s x => s + f x) a = a + (l.map f).sum := by
  induction l generalizing a with
  | nil => simp
  | cons x xs ih => simp [ih, add_assoc]

/-- C1: for every database state, `currentBalance()` equals the
administrator-set `initial_balance` setting (0 when unset) plus the sum of
amounts of paid, non-imported dues records, plus the sum of
`total_donations` over completed events, minus the sum of the `total` field
over all expense records. -/
theorem currentBalance_eq_spec (db : DB) :
    getCurrentBalance db = specCurrentBalance db := by
  unfold getCurrentBalance specCurrentBalance
  simp only [foldl_add_eq_sum_map]
  ring

/-! ## Slug utilities (src/src/utils/slugGenerator.ts) -/

/-- JS `\w` character class: letters, digits, underscore. -/
def isWordChar (c : Char) : Bool := c.isAlpha || c.isDigit || c == '_'

/-- Collapse runs of consecutive dashes into a single dash
(the `replace(/\-\-+/g, "-")` step). -/
def collapseDashes : List Char → List Char
  | [] => []
  | [c] => [c]
  | c :: c2 :: rest =>
    if c == '-' && c2 == '-' then collapseDashes (c2 :: rest)
    else c :: collapseDashes (c2 :: rest)

/-- `generateSlug(text)` from src/src/utils/slugGenerator.ts: lowercase,
trim, whitespace to dashes, strip non-word characters, collapse dash runs,
strip leading and trailing dashes.  (Replacing each whitespace character by
a dash and then collapsing dash runs yields the same string as replacing
whitespace runs first, since the non-word filter keeps every dash.) -/
def generateSlug (text : String) : String :=
  let lowered := (text.toLower.trim).data
  let dashed := lowered.map (fun c => if c.isWhitespace then '-' else c)
  let cleaned := dashed.filter (fun c => isWordChar c || c == '-')
  let collapsed := collapseDashes cleaned
  let trimmed :=
    (((collapsed.dropWhile (fun c => c == '-')).reverse).dropWhile
      (fun c => c == '-')).reverse
  String.mk trimmed

/-- Candidate tried by the `generateUniqueSlug` loop at a given counter. -/
def slugCandidate (base : String) (counter : Nat) : String :=
  if counter == 0 then base else base ++ "-" ++ toString counter

/-- The `while existingSlugs.includes(slug)` loop, with explicit fuel. -/
def generateUniqueSlugGo (base : String) (existing : List String) :
    Nat → Nat → String
  | counter, 0 => slugCandidate base counter
  | counter, fuel + 1 =>
    if existing.contains (slugCandidate base counter) then
      generateUniqueSlugGo base existing (counter + 1) fuel
    else slugCandidate base counter

/-- `generateUniqueSlug(baseSlug, existingSlugs)` from
src/src/utils/slugGenerator.ts.  The fuel `existingSlugs.length + 1`
suffices: the candidates are pairwise distinct, so among the first
`length + 1` of them at least one is not in `existingSlugs`; the function
therefore computes the same slug as the unbounded JS loop. -/
def generateUniqueSlug (baseSlug : String) (existingSlugs : List String) : String :=
  generateUniqueSlugGo baseSlug existingSlugs 0 (existingSlugs.length + 1)

/-! ## Expense (pengeluaran) creation and update
(src/src/controller/keuangan.controller.ts) -/

/-- One raw item of an expense request, before parsing: `name` and `price`
from the body, `image` the uploaded file matched to the item index, and
`image_url` an url sent in the body (used by the update path). -/
structure RawItem where
  name : String
  price : Option Int
  image : Option String := none
  image_url : Option String := none
deriving DecidableEq, Repr

/-- `deleteImageFile(imageUrl)` from keuangan.controller.ts lines 65-80:
best-effort removal of the stored file (a missing file is ignored). -/
def deleteImageFile (files : List String) (url : String) : List String :=
  files.erase url

/-- The `req.body.items.map(...)` of `createPengeluaran` (lines 189-210):
each item must have a name and a price, the matching uploaded file becomes
its `image_url`; the first invalid item aborts with a thrown error. -/
def parseCreateItems : List RawItem → Nat → Except String (List PengeluaranItem)
  | [], _ => Except.ok []
  | item :: rest, idx =>
    if item.name == "" || item.price == none then
      Except.error ("Item " ++ toString idx ++ " must have name and price")
    else
      match parseCreateItems rest (idx + 1) with
      | Except.error e => Except.error e
      | Except.ok tail =>
        Except.ok
          ({ name := item.name, price := item.price.getD 0,
             image_url := item.image.map (fun f => "/uploads/" ++ f) } :: tail)

inductive CreatePengeluaranResult
  | unauthorized
  | validationError (msg : String)
  | insufficientBalance (current_balance requested_amount difference : Int)
  | failedError (msg : String)
  | created (p : Pengeluaran)
deriving DecidableEq, Repr

/-- `createPengeluaran` from src/src/controller/keuangan.controller.ts
lines 171-293: requires a user, a title and a total (JS falsy check, so a
missing or zero total is rejected), parses the items (at least one
required), rejects with the insufficient-balance payload when the amount
exceeds `getCurrentBalance()`, otherwise creates the record with a fresh
unique slug. -/
def createPengeluaran (db : DB) (userId : Option Nat) (title : String)
    (total : Option Int) (items : List RawItem) :
    CreatePengeluaranResult × DB :=
  match userId with
  | none => (CreatePengeluaranResult.unauthorized, db)
  | some uid =>
    if title == "" || total == none || total == some 0 then
      (CreatePengeluaranResult.validationError "title and total are required", db)
    else
      match parseCreateItems items 0 with
      | Except.error msg => (CreatePengeluaranResult.failedError msg, db)
      | Except.ok parsed =>
        if parsed.length == 0 then
          (CreatePengeluaranResult.validationError "at least one item is required", db)
        else
          let currentBalance := getCurrentBalance db
          let expenseAmount := total.getD 0
          if expenseAmount > currentBalance then
            (CreatePengeluaranResult.insufficientBalance currentBalance
              expenseAmount (expenseAmount - currentBalance), db)
          else
            let baseSlug := generateSlug title
            let existingSlugs := db.pengeluarans.map (fun p => p.slug)
            let slug := generateUniqueSlug baseSlug existingSlugs
            let p : Pengeluaran :=
              { id := db.nextPengeluaranId, title := title, slug := slug,
                items := parsed, total := expenseAmount, created_by := uid }
            (CreatePengeluaranResult.created p,
             { db with pengeluarans := db.pengeluarans ++ [p],
                       nextPengeluaranId := db.nextPengeluaranId + 1 })

def findPengeluaranById (l : List Pengeluaran) (pid : Nat) : Option Pengeluaran :=
  l.find? (fun p => p.id == pid)

/-- `findByIdAndUpdate` on the pengeluaran collection (MongoDB `_id`s are
unique, so updating the first record with the id is the exact semantics). -/
def updatePengeluaranById : List Pengeluaran → Nat → (Pengeluaran → Pengeluaran) →
    List Pengeluaran
  | [], _, _ => []
  | p :: rest, pid, f =>
    if p.id == pid then f p :: rest else p :: updatePengeluaranById rest pid f

/-- The item-processing map of `updatePengeluaran` (lines 443-486): a new
uploaded file wins (deleting the old stored image), else an url sent in the
body, else the old stored url is kept; the first invalid item aborts.
Returns the parse outcome together with the uploads directory after the
deletions performed so far. -/
def processUpdateItems (oldItems : List PengeluaranItem) :
    List RawItem → Nat → List String →
    Except String (List PengeluaranItem) × List String
  | [], _, files => (Except.ok [], files)
  | raw :: rest, idx, files =>
    if raw.name == "" || raw.price == none then
      (Except.error ("Item " ++ toString idx ++ " must have name and price"), files)
    else
      match raw.image with
      | some f =>
        let files1 :=
          match (oldItems.get? idx).bind (fun it => it.image_url) with
          | some oldUrl => deleteImageFile files oldUrl
          | none => files
        let itemData : PengeluaranItem :=
          { name := raw.name, price := raw.price.getD 0,
            image_url := some ("/uploads/" ++ f) }
        let res := processUpdateItems oldItems rest (idx + 1) files1
        (res.1.map (fun l => itemData :: l), res.2)
      | none =>
        let keptUrl :=
          match raw.image_url with
          | some u => some u
          | none => (oldItems.get? idx).bind (fun it => it.image_url)
        let itemData : PengeluaranItem :=
          { name := raw.name, price := raw.price.getD 0, image_url := keptUrl }
        let res := processUpdateItems oldItems rest (idx + 1) files
        (res.1.map (fun l => itemData :: l), res.2)

inductive UpdatePengeluaranResult
  | notFound
  | validationError (msg : String)
  | insufficientBalanceUpd
      (current_balance old_total new_total additional_required : Int)
  | failedError (msg : String)
  | updated (p : Pengeluaran)
deriving DecidableEq, Repr

/-- The tail of `updatePengeluaran` after item processing: the balance
guard on a positive total increase, then `findByIdAndUpdate` applying the
collected update data. -/
def updPengeluaranFinish (db : DB) (pid : Nat) (existing : Pengeluaran)
    (titleChange : Option (String × Option String))
    (newItems : Option (List PengeluaranItem)) (totalOpt : Option Int) :
    UpdatePengeluaranResult × DB :=
  let proceed : UpdatePengeluaranResult × DB :=
    let f := fun (p : Pengeluaran) =>
      let p1 := match titleChange with
        | some (t, slugOpt) => { p with title := t, slug := slugOpt.getD p.slug }
        | none => p
      let p2 := match newItems with
        | some its => { p1 with items := its }
        | none => p1
      match totalOpt with
      | some nt => { p2 with total := nt }
      | none => p2
    (UpdatePengeluaranResult.updated (f existing),
     { db with pengeluarans := updatePengeluaranById db.pengeluarans pid f })
  match totalOpt with
  | some newTotal =>
    let oldTotal := existing.total
    let difference := newTotal - oldTotal
    if difference > 0 then
      let currentBalance := getCurrentBalance db
      if difference > currentBalance then
        (UpdatePengeluaranResult.insufficientBalanceUpd currentBalance
          oldTotal newTotal difference, db)
      else proceed
    else proceed
  | none => proceed

/-- `updatePengeluaran` from src/src/controller/keuangan.controller.ts
lines 408-539: looks up the record, computes the title / slug update,
processes the items (deleting replaced images on the way, before any
guard), rejects an empty item list, applies the balance guard to a
positive total increase, then updates the record. -/
def updatePengeluaran (db : DB) (pid : Nat) (titleOpt : Option String)
    (totalOpt : Option Int) (itemsOpt : Option (List RawItem)) :
    UpdatePengeluaranResult × DB :=
  match findPengeluaranById db.pengeluarans pid with
  | none => (UpdatePengeluaranResult.notFound, db)
  | some existing =>
    let titleChange : Option (String × Option String) :=
      match titleOpt with
      | some t =>
        if t == "" then none
        else if t != existing.title then
          let baseSlug := generateSlug t
          let otherSlugs :=
            (db.pengeluarans.filter (fun p => p.id != pid)).map (fun p => p.slug)
          some (t, some (generateUniqueSlug baseSlug otherSlugs))
        else some (t, none)
      | none => none
    match itemsOpt with
    | some raws =>
      let res := processUpdateItems existing.items raws 0 db.files
      let db1 := { db with files := res.2 }
      match res.1 with
      | Except.error msg => (UpdatePengeluaranResult.failedError msg, db1)
      | Except.ok parsed =>
        if parsed.length == 0 then
          (UpdatePengeluaranResult.validationError "items must be a non-empty array", db1)
        else updPengeluaranFinish db1 pid existing titleChange (some parsed) totalOpt
    | none => updPengeluaranFinish db pid existing titleChange none totalOpt

lemma getCurrentBalance_files_irrelevant (db : DB) (fs : List String) :
    getCurrentBalance { db with files := fs } = getCurrentBalance db := rfl

/-- C2: an expense creation whose total exceeds the current balance, and an
expense update whose increase over the stored total exceeds the current
balance, are rejected with the insufficient-balance payload carrying the
current balance, the requested amount, and the shortfall (for an update:
the additional amount required), and no expense record is created or
modified. -/
theorem expense_rejected_when_exceeding_balance :
    (∀ (db : DB) (uid : Nat) (title : String) (t : Int) (items : List RawItem)
        (parsed : List PengeluaranItem),
        title ≠ "" → t ≠ 0 →
        parseCreateItems items 0 = Except.ok parsed → parsed ≠ [] →
        t > getCurrentBalance db →
        createPengeluaran db (some uid) title (some t) items =
          (CreatePengeluaranResult.insufficientBalance (getCurrentBalance db) t
            (t - getCurrentBalance db), db)) ∧
    (∀ (db : DB) (pid : Nat) (titleOpt : Option String) (newTotal : Int)
        (itemsOpt : Option (List RawItem)) (existing : Pengeluaran),
        findPengeluaranById db.pengeluarans pid = some existing →
        (itemsOpt = none ∨
          ∃ raws parsed files1, itemsOpt = some raws ∧
            processUpdateItems existing.items raws 0 db.files =
              (Except.ok parsed, files1) ∧ parsed ≠ []) →
        newTotal - existing.total > 0 →
        newTotal - existing.total > getCurrentBalance db →
        ∃ db1, updatePengeluaran db pid titleOpt (some newTotal) itemsOpt =
            (UpdatePengeluaranResult.insufficientBalanceUpd (getCurrentBalance db)
              existing.total newTotal (newTotal - existing.total), db1) ∧
          db1.pengeluarans = db.pengeluarans) := by
  constructor
  · intro db uid title t items parsed htitle ht hparse hne hgt
    have hlen : parsed.length ≠ 0 := by
      simpa [List.length_eq_zero] using hne
    simp [createPengeluaran, htitle, ht, hparse, hlen, hgt]
  · intro db pid titleOpt newTotal itemsOpt existing hfind hitems hpos hgt
    rcases hitems with hnone | ⟨raws, parsed, files1, hsome, hproc, hne⟩
    · refine ⟨db, ?_, rfl⟩
      simp [updatePengeluaran, hfind, hnone, updPengeluaranFinish, hpos, hgt]
    · refine ⟨{ db with files := files1 }, ?_, rfl⟩
      have hlen : parsed.length ≠ 0 := by
        simpa [List.length_eq_zero] using hne
      simp [updatePengeluaran, hfind, hsome, hproc, hlen, updPengeluaranFinish,
        getCurrentBalance_files_irrelevant, hpos, hgt]

/-- An empty document store (all collections empty, no settings). -/
def emptyDB : DB :=
  { users := [], iurans := [], events := [], pengeluarans := [],
    settings := [], files := [] }

/-- A concrete stored expense record of total 3, for witnesses. -/
def pengeluaranCat : Pengeluaran :=
  { id := 7, title := "cat", slug := "cat",
    items := [{ name := "cat", price := 3, image_url := none }],
    total := 3, created_by := 1 }

/-- A store holding only [[pengeluaranCat]] (current balance -3). -/
def dbWithCat : DB := { emptyDB with pengeluarans := [pengeluaranCat] }

/-- Witness for C2 at concrete inputs: an empty store (balance 0), a
creation request of total 5, and an update from total 3 to 10 on a store
holding a single expense record of total 3. -/
theorem expense_rejected_when_exceeding_balance_witness :
    createPengeluaran emptyDB (some 1) "beli semen" (some 5)
        [{ name := "semen", price := some 5 }] =
      (CreatePengeluaranResult.insufficientBalance 0 5 5, emptyDB) ∧
    ∃ db1,
      updatePengeluaran dbWithCat 7 none (some 10) none =
        (UpdatePengeluaranResult.insufficientBalanceUpd (-3) 3 10 7, db1) ∧
      db1.pengeluarans = [pengeluaranCat] := by
  constructor
  · have h := expense_rejected_when_exceeding_balance.1
      emptyDB 1 "beli semen" 5
      [{ name := "semen", price := some 5 }]
      [{ name := "semen", price := 5, image_url := none }]
      (by decide) (by decide) (by rfl) (by decide) (by decide)
    simpa [emptyDB] using h
  · have h := expense_rejected_when_exceeding_balance.2
      dbWithCat 7 none 10 none pengeluaranCat
      (by decide) (Or.inl rfl) (by decide) (by decide)
    simpa [dbWithCat, pengeluaranCat] using h

/-! ## Event ledger (src/src/models/event.model.ts,
src/src/controller/event.controller.ts) -/

/-- The `eventSchema.pre("save")` hook (event.model.ts lines 126-139):
recompute `total_donations`, `total_expenses` and `balance` from the
donation and expense lists.  Every mutating controller path goes through
`save()`, hence through this function. -/
def recalcTotals (e : Event) : Event :=
  let totalDonations := e.donations.foldl (fun sum d => sum + d.amount) 0
  let totalExpenses := e.expenses.foldl (fun sum x => sum + x.amount) 0
  { e with total_donations := totalDonations,
           total_expenses := totalExpenses,
           balance := totalDonations - totalExpenses }

def findEventById (l : List Event) (eid : Nat) : Option Event :=
  l.find? (fun e => e.id == eid)

/-- Writing a saved event document back to the collection (`_id`s are
unique, so replacing the first record with the id is the exact
semantics). -/
def updateEventById : List Event → Nat → (Event → Event) → List Event
  | [], _, _ => []
  | e :: rest, eid, f =>
    if e.id == eid then f e :: rest else e :: updateEventById rest eid f

inductive AddDonationResult
  | validationError (msg : String)
  | notFound
  | saved (e : Event)
deriving DecidableEq, Repr

/-- `addDonation` from src/src/controller/event.controller.ts lines
199-252: requires `donor_name` and `amount` (JS falsy check), refuses
mutation of a completed event for non-admins, pushes the donation,
auto-activates a planning event, and saves (triggering the pre-save
recomputation). -/
def addDonation (db : DB) (userRole : Option Role) (eid : Nat)
    (donor_name : String) (amount : Option Int) (dateOpt : Option Nat)
    (now : Nat) : AddDonationResult × DB :=
  if donor_name == "" || amount == none || amount == some 0 then
    (AddDonationResult.validationError "donor_name and amount are required", db)
  else
    match findEventById db.events eid with
    | none => (AddDonationResult.notFound, db)
    | some event =>
      if event.status == EventStatus.completed && userRole != some Role.admin then
        (AddDonationResult.validationError "cannot add donation to completed event", db)
      else
        let e1 := { event with donations := event.donations ++
          [{ donor_name := donor_name, amount := amount.getD 0,
             date := dateOpt.getD now }] }
        let e2 := if e1.status == EventStatus.planning then
            { e1 with status := EventStatus.active }
          else e1
        let saved := recalcTotals e2
        (AddDonationResult.saved saved,
         { db with events := updateEventById db.events eid (fun _ => saved) })

/-- The surplus / deficit / balanced decision of the `completeEvent`
summary string (the localized currency formatting of the message is
presentation only and not modelled). -/
inductive Narrative
  | deficit
  | surplus
  | balanced
deriving DecidableEq, Repr

def classifyBalance (b : Int) : Narrative :=
  if b < 0 then Narrative.deficit
  else if b > 0 then Narrative.surplus
  else Narrative.balanced

/-- The response payload of a successful `completeEvent`. -/
structure CompleteEventData where
  event : Event
  balance : Int
  total_donations : Int
  total_expenses : Int
  pengeluaran_created : Nat
  summary : Narrative
deriving DecidableEq, Repr

inductive CompleteEventResult
  | unauthorized
  | notFound
  | alreadyCompleted
  | completedOk (d : CompleteEventData)
deriving DecidableEq, Repr

/-- The `for (const expense of event.expenses)` loop of `completeEvent`
(lines 359-379): one standalone expense record per event expense line,
titled `"{event name} - {expense description}"`, with the expense amount
as single item and total, threading the growing slug list and fresh ids. -/
def completeEventLoop (eventName : String) (uid : Nat) :
    List EventExpense → Nat → List String → List Pengeluaran
  | [], _, _ => []
  | x :: rest, pid, slugs =>
    let title := eventName ++ " - " ++ x.description
    let baseSlug := generateSlug title
    let slug := generateUniqueSlug baseSlug slugs
    let p : Pengeluaran :=
      { id := pid, title := title, slug := slug,
        items := [{ name := x.description, price := x.amount,
                    image_url := x.proof_image_urls.head? }],
        total := x.amount, created_by := uid }
    p :: completeEventLoop eventName uid rest (pid + 1) (slugs ++ [slug])

/-- The final mutation of `completeEvent` (lines 386-389): set status to
completed and stamp `completed_at`, then `save()` (which reruns the
pre-save total recomputation). -/
def markCompleted (e : Event) (now : Nat) : Event :=
  recalcTotals { e with status := EventStatus.completed, completed_at := some now }

/-- `completeEvent` from src/src/controller/event.controller.ts lines
326-422: rejects a missing user or event, rejects an already completed
event, otherwise forks every expense line into a standalone expense
record, reads the stored totals for the summary, marks the event completed
with a timestamp and saves it. -/
def completeEvent (db : DB) (userId : Option Nat) (eid : Nat) (now : Nat) :
    CompleteEventResult × DB :=
  match userId with
  | none => (CompleteEventResult.unauthorized, db)
  | some uid =>
    match findEventById db.events eid with
    | none => (CompleteEventResult.notFound, db)
    | some event =>
      if event.status == EventStatus.completed then
        (CompleteEventResult.alreadyCompleted, db)
      else
        let existingSlugs := db.pengeluarans.map (fun p => p.slug)
        let created := completeEventLoop event.name uid event.expenses
          db.nextPengeluaranId existingSlugs
        let saved := markCompleted event now
        (CompleteEventResult.completedOk
          { event := saved, balance := event.balance,
            total_donations := event.total_donations,
            total_expenses := event.total_expenses,
            pengeluaran_created := created.length,
            summary := classifyBalance event.balance },
         { db with pengeluarans := db.pengeluarans ++ created,
                   events := updateEventById db.events eid (fun _ => saved),
                   nextPengeluaranId := db.nextPengeluaranId + created.length })

lemma recalcTotals_inv (e : Event) :
    (recalcTotals e).total_donations = (e.donations.map (fun d => d.amount)).sum ∧
    (recalcTotals e).total_expenses = (e.expenses.map (fun x => x.amount)).sum ∧
    (recalcTotals e).balance =
      (recalcTotals e).total_donations - (recalcTotals e).total_expenses := by
  refine ⟨?_, ?_, ?_⟩ <;> simp [recalcTotals, foldl_add_eq_sum_map]

/-- C8: after every save of an event the derived totals satisfy
`total_donations = Σ donation amounts`, `total_expenses = Σ expense
amounts` and `balance = total_donations - total_expenses`; the totals are
functions of the lists alone (two events with the same lists save to the
same totals), and the event saved by `addDonation` satisfies the
invariant. -/
theorem event_totals_recomputed_on_save :
    (∀ e : Event,
      (recalcTotals e).total_donations = (e.donations.map (fun d => d.amount)).sum ∧
      (recalcTotals e).total_expenses = (e.expenses.map (fun x => x.amount)).sum ∧
      (recalcTotals e).balance =
        (recalcTotals e).total_donations - (recalcTotals e).total_expenses) ∧
    (∀ e e2 : Event, e.donations = e2.donations → e.expenses = e2.expenses →
      (recalcTotals e).total_donations = (recalcTotals e2).total_donations ∧
      (recalcTotals e).total_expenses = (recalcTotals e2).total_expenses ∧
      (recalcTotals e).balance = (recalcTotals e2).balance) ∧
    (∀ (db : DB) (role : Option Role) (eid : Nat) (dn : String)
        (am : Option Int) (dt : Option Nat) (now : Nat) (ev : Event),
      (addDonation db role eid dn am dt now).1 = AddDonationResult.saved ev →
      ev.total_donations = (ev.donations.map (fun d => d.amount)).sum ∧
      ev.total_expenses = (ev.expenses.map (fun x => x.amount)).sum ∧
      ev.balance = ev.total_donations - ev.total_expenses) := by
  refine ⟨fun e => recalcTotals_inv e, ?_, ?_⟩
  · intro e e2 h1 h2
    refine ⟨?_, ?_, ?_⟩ <;> simp [recalcTotals, h1, h2]
  · intro db role eid dn am dt now ev h
    unfold addDonation at h
    split at h
    · simp at h
    · rcases hf : findEventById db.events eid with _ | event
      · rw [hf] at h; simp at h
      · rw [hf] at h
        simp only at h
        split at h
        · simp at h
        · simp only [Prod.fst] at h
          cases h
          exact recalcTotals_inv _

/-- A concrete expense line for the witnesses below. -/
def evExpense0 : EventExpense :=
  { description := "sewa panggung", amount := 2, date := 16,
    proof_image_urls := [] }

/-- A concrete event in planning status with one expense line, for the
witnesses below. -/
def ev0 : Event :=
  { id := 3, name := "agustusan", slug := "agustusan", description := "hut ri",
    date := 17, donations := [], expenses := [evExpense0],
    total_donations := 0, total_expenses := 2, balance := -2,
    status := EventStatus.planning, completed_at := none, created_by := 1 }

/-- A store holding only the event [[ev0]]. -/
def dbEvt : DB := { emptyDB with events := [ev0] }

/-- The event [[ev0]] as saved by `addDonation` with a donation of 4. -/
def evSaved0 : Event :=
  recalcTotals { ev0 with
    donations := [{ donor_name := "budi", amount := 4, date := 9 }],
    status := EventStatus.active }

/-- Witness for C8: a concrete `addDonation` call saves an event whose
stored totals satisfy the invariant. -/
theorem event_totals_recomputed_on_save_witness :
    (addDonation dbEvt (some Role.warga) 3 "budi" (some 4) none 9).1 =
        AddDonationResult.saved evSaved0 ∧
    (evSaved0.total_donations = (evSaved0.donations.map (fun d => d.amount)).sum ∧
     evSaved0.total_expenses = (evSaved0.expenses.map (fun x => x.amount)).sum ∧
     evSaved0.balance = evSaved0.total_donations - evSaved0.total_expenses) :=
  ⟨by decide,
   event_totals_recomputed_on_save.2.2 dbEvt (some Role.warga) 3 "budi"
     (some 4) none 9 evSaved0 (by decide)⟩

lemma completeEventLoop_length (n : String) (uid : Nat)
    (xs : List EventExpense) (pid : Nat) (slugs : List String) :
    (completeEventLoop n uid xs pid slugs).length = xs.length := by
  induction xs generalizing pid slugs with
  | nil => simp [completeEventLoop]
  | cons x rest ih => simp [completeEventLoop, ih]

lemma completeEventLoop_titles (n : String) (uid : Nat)
    (xs : List EventExpense) (pid : Nat) (slugs : List String) :
    (completeEventLoop n uid xs pid slugs).map (fun p => p.title) =
      xs.map (fun x => n ++ " - " ++ x.description) := by
  induction xs generalizing pid slugs with
  | nil => simp [completeEventLoop]
  | cons x rest ih => simp [completeEventLoop, ih]

lemma findEventById_update_const (l : List Event) (eid : Nat) (v : Event)
    (hv : v.id = eid) (e₀ : Event) (h : findEventById l eid = some e₀) :
    findEventById (updateEventById l eid (fun _ => v)) eid = some v := by
  induction l with
  | nil => simp [findEventById] at h
  | cons e rest ih =>
    rcases hb : (e.id == eid) with _ | _
    · have hb' : (e.id == eid) = false := hb
      rw [findEventById, List.find?] at h
      rw [hb'] at h
      simp only [updateEventById, hb', Bool.false_eq_true, if_false]
      rw [findEventById, List.find?, hb']
      exact ih h
    · have hb' : (e.id == eid) = true := hb
      simp only [updateEventById, hb', if_true]
      rw [findEventById, List.find?]
      have : (v.id == eid) = true := by simp [hv]
      rw [this]

/-- C7: completing a not-yet-completed event with N expense lines creates
exactly N standalone expense records, each titled
`"{event name} - {expense description}"`, marks the event completed with a
completion timestamp, returns the surplus / deficit / balanced narrative,
and a second `completeEvent` on the same event is rejected and creates no
records. -/
theorem completeEvent_forks_expenses (db : DB) (uid eid now now2 uid2 : Nat)
    (e : Event) (hfind : findEventById db.events eid = some e)
    (hstatus : e.status ≠ EventStatus.completed) :
    ∃ created db1,
      completeEvent db (some uid) eid now =
        (CompleteEventResult.completedOk
          { event := markCompleted e now,
            balance := e.balance, total_donations := e.total_donations,
            total_expenses := e.total_expenses,
            pengeluaran_created := e.expenses.length,
            summary := classifyBalance e.balance }, db1) ∧
      db1.pengeluarans = db.pengeluarans ++ created ∧
      created.length = e.expenses.length ∧
      created.map (fun p => p.title) =
        e.expenses.map (fun x => e.name ++ " - " ++ x.description) ∧
      (markCompleted e now).status = EventStatus.completed ∧
      (markCompleted e now).completed_at = some now ∧
      findEventById db1.events eid = some (markCompleted e now) ∧
      completeEvent db1 (some uid2) eid now2 =
        (CompleteEventResult.alreadyCompleted, db1) := by
  have hst : (e.status == EventStatus.completed) = false := by
    simp [hstatus]
  have heid : e.id = eid := by
    have := List.find?_some hfind
    simpa using this
  have hsavedid : (markCompleted e now).id = eid := by
    simp [markCompleted, recalcTotals, heid]
  have hfind2 : findEventById
      (updateEventById db.events eid (fun _ => markCompleted e now)) eid =
      some (markCompleted e now) :=
    findEventById_update_const _ _ _ hsavedid _ hfind
  refine ⟨completeEventLoop e.name uid e.expenses db.nextPengeluaranId
      (db.pengeluarans.map (fun p => p.slug)),
    { db with
        pengeluarans := db.pengeluarans ++ completeEventLoop e.name uid
          e.expenses db.nextPengeluaranId (db.pengeluarans.map (fun p => p.slug)),
        events := updateEventById db.events eid (fun _ => markCompleted e now),
        nextPengeluaranId := db.nextPengeluaranId + (completeEventLoop e.name uid
          e.expenses db.nextPengeluaranId
          (db.pengeluarans.map (fun p => p.slug))).length },
    ?_, rfl, ?_, ?_, ?_, ?_, ?_, ?_⟩
  · simp [completeEvent, hfind, hst, completeEventLoop_length]
  · exact completeEventLoop_length _ _ _ _ _
  · exact completeEventLoop_titles _ _ _ _ _
  · simp [markCompleted, recalcTotals]
  · simp [markCompleted, recalcTotals]
  · simpa [completeEvent, hfind, hst] using hfind2
  · have hms : (markCompleted e now).status = EventStatus.completed := by
      simp [markCompleted, recalcTotals]
    simp [completeEvent, hfind2, hms]

/-- Witness for C7: completing the concrete planning event [[ev0]] held in
[[dbEvt]]. -/
theorem completeEvent_forks_expenses_witness :
    findEventById dbEvt.events 3 = some ev0 ∧
    ev0.status ≠ EventStatus.completed ∧
    (∃ created db1,
      completeEvent dbEvt (some 1) 3 99 =
        (CompleteEventResult.completedOk
          { event := markCompleted ev0 99,
            balance := ev0.balance, total_donations := ev0.total_donations,
            total_expenses := ev0.total_expenses,
            pengeluaran_created := ev0.expenses.length,
            summary := classifyBalance ev0.balance }, db1) ∧
      db1.pengeluarans = dbEvt.pengeluarans ++ created ∧
      created.length = ev0.expenses.length ∧
      created.map (fun p => p.title) =
        ev0.expenses.map (fun x => ev0.name ++ " - " ++ x.description) ∧
      (markCompleted ev0 99).status = EventStatus.completed ∧
      (markCompleted ev0 99).completed_at = some 99 ∧
      findEventById db1.events 3 = some (markCompleted ev0 99) ∧
      completeEvent db1 (some 2) 3 100 =
        (CompleteEventResult.alreadyCompleted, db1)) :=
  ⟨by decide, by decide,
   completeEvent_forks_expenses dbEvt 1 3 99 100 2 ev0 (by decide) (by decide)⟩

/-! ## Period formatting and dues creation
(`${year}-${String(month).padStart(2, "0")}`) -/

/-- `String(month).padStart(2, "0")`. -/
def pad2 (m : Nat) : String :=
  if m < 10 then "0" ++ toString m else toString m

/-- The `"YYYY-MM"` period key built by every generation loop. -/
def mkPeriod (year month : Nat) : String :=
  toString year ++ "-" ++ pad2 month

/-- The dues record created by the generation loops: amount `"50000"`,
regular type, unpaid status, null submission / confirmation fields. -/
def newIuranFor (uid : Nat) (period : String) (iid : Nat) : Iuran :=
  { id := iid, user := uid, period := period, amount := 50000,
    status := IuranStatus.unpaid, type := IuranType.regular }

def findUserById (l : List User) (uid : Nat) : Option User :=
  l.find? (fun u => u.id == uid)

def updateUserById : List User → Nat → (User → User) → List User
  | [], _, _ => []
  | u :: rest, uid, f =>
    if u.id == uid then f u :: rest else u :: updateUserById rest uid f

/-! ## Registration (src/unnamed/part_007 lines 502-579, the auth
controller revision with lifecycle status) -/

/-- A registration request after DTO validation (`UserDTO` has no status
field; a created user starts with the schema default `active`). -/
structure RegisterReq where
  email : String
  username : String
  role : Role
  address : Option String := none
deriving DecidableEq, Repr

inductive RegisterResult
  | conflictMsg (msg : String)
  | success (u : User)
deriving DecidableEq, Repr

/-- The `for (let month = currentMonth; month <= 12; month++)` creation
loop shared by registration and restoration: one record per month,
consecutive fresh ids. -/
def createIuransForMonths (uid year : Nat) : List Nat → Nat → List Iuran
  | [], _ => []
  | m :: ms, iid =>
    newIuranFor uid (mkPeriod year m) iid :: createIuransForMonths uid year ms (iid + 1)

/-- `userModel.create(data)` in `register`: a fresh user document from the
validated request, with the schema default status `active`. -/
def mkNewUser (db : DB) (req : RegisterReq) : User :=
  { id := db.nextUserId, email := req.email, username := req.username,
    role := req.role, address := req.address }

/-- `register` from src/unnamed/part_007 lines 502-579: reject a taken
username or email, create the user, and - when the new user is not an
admin and is active - create one unpaid regular dues record for every
period from the creation month through December of the creation year.
`year` / `month` stand for the request-time clock (`new Date()`). -/
def register (db : DB) (req : RegisterReq) (year month : Nat) :
    RegisterResult × DB :=
  if (db.users.find? (fun u => u.username == req.username)).isSome then
    (RegisterResult.conflictMsg "Username is already taken", db)
  else if (db.users.find? (fun u => u.email == req.email)).isSome then
    (RegisterResult.conflictMsg "Email is already taken", db)
  else
    let newUser : User := mkNewUser db req
    let db1 := { db with users := db.users ++ [newUser],
                         nextUserId := db.nextUserId + 1 }
    if req.role != Role.admin && newUser.status == UserStatus.active then
      let months := List.range' month (13 - month)
      let newIurans := createIuransForMonths newUser.id year months db.nextIuranId
      (RegisterResult.success newUser,
       { db1 with iurans := db1.iurans ++ newIurans,
                  nextIuranId := db.nextIuranId + newIurans.length })
    else (RegisterResult.success newUser, db1)

/-! ## Scheduled monthly generation (src/unnamed/part_005 lines 14-83) -/

/-- The per-user body of the monthly generation job: skip the user when a
regular dues record for the period already exists, otherwise create one. -/
def generateMonthlyLoop (period : String) : DB → List User → DB × Nat
  | db, [] => (db, 0)
  | db, u :: rest =>
    if (db.iurans.find? (fun i =>
        i.user == u.id && i.period == period && i.type == IuranType.regular)).isSome then
      generateMonthlyLoop period db rest
    else
      let db1 := { db with
        iurans := db.iurans ++ [newIuranFor u.id period db.nextIuranId],
        nextIuranId := db.nextIuranId + 1 }
      let res := generateMonthlyLoop period db1 rest
      (res.1, res.2 + 1)

/-- The body of the `startMonthlyIuranGeneration` cron job from
src/unnamed/part_005 lines 14-83: for every user except admins, create an
unpaid regular record for the current period unless one already exists;
returns the new store and the created count. -/
def generateMonthlyIuran (db : DB) (period : String) : DB × Nat :=
  generateMonthlyLoop period db (db.users.filter (fun u => u.role != Role.admin))

/-! ## Soft deletion of a resident (src/unnamed/part_007 lines 844-888) -/

inductive DeleteUserResult
  | conflictMsg (msg : String)
  | notFound
  | success (deletedUnpaidIuran : Nat)
deriving DecidableEq, Repr

/-- `deleteUser` from src/unnamed/part_007 lines 844-888: look up the
user, delete the stored profile image, soft-delete the user
(`isDeleted := true` with a timestamp), and
`deleteMany({ user: id, status: { $ne: PAID } })` on the dues store. -/
def deleteUser (db : DB) (uid : Nat) (now : Nat) : DeleteUserResult × DB :=
  match findUserById db.users uid with
  | none => (DeleteUserResult.notFound, db)
  | some user =>
    let files1 :=
      match user.image_url with
      | some url => deleteImageFile db.files url
      | none => db.files
    let users1 := updateUserById db.users uid
      (fun u => { u with isDeleted := true, deletedAt := some now })
    let remaining := db.iurans.filter
      (fun i => !(i.user == uid && i.status != IuranStatus.paid))
    (DeleteUserResult.success (db.iurans.length - remaining.length),
     { db with users := users1, iurans := remaining, files := files1 })

lemma findUserById_update (l : List User) (uid : Nat) (f : User → User)
    (hf : ∀ u, (f u).id = u.id) :
    findUserById (updateUserById l uid f) uid = (findUserById l uid).map f := by
  induction l with
  | nil => simp [findUserById, updateUserById]
  | cons u rest ih =>
    rcases hb : (u.id == uid) with _ | _
    · have hb' : (u.id == uid) = false := hb
      simp only [updateUserById, hb', Bool.false_eq_true, if_false]
      rw [findUserById, List.find?, hb', findUserById, List.find?, hb']
      exact ih
    · have hb' : (u.id == uid) = true := hb
      simp only [updateUserById, hb', if_true]
      rw [findUserById, List.find?, findUserById, List.find?, hb']
      have : ((f u).id == uid) = true := by rw [hf u]; exact hb'
      rw [this]
      rfl

/-- A non-admin resident with id 0, for the C9 counterexample. -/
def userC9 : User :=
  { id := 0, email := "ss@warga.rt", username := "warga satu", role := Role.warga }

/-- A pending dues record owned by [[userC9]]. -/
def iuranPendingC9 : Iuran :=
  { id := 1, user := 0, period := "2025-03", amount := 50000,
    status := IuranStatus.pending }

/-- A store holding [[userC9]] and that resident's pending record. -/
def dbC9 : DB := { emptyDB with users := [userC9], iurans := [iuranPendingC9] }

/-- Counterexample to C9 as stated: the claim predicts that a resident's
`pending` dues record survives `deleteUser`, but the code deletes every
record whose status is not `paid` - the concrete pending record is removed
from the store. -/
theorem deleteUser_removes_pending_counterexample :
    iuranPendingC9.status = IuranStatus.pending ∧
    iuranPendingC9 ∈ dbC9.iurans ∧
    iuranPendingC9 ∉ (deleteUser dbC9 0 5).2.iurans := by
  refine ⟨rfl, by decide, ?_⟩
  decide

/-- C9 amended: when a resident is soft-deleted, exactly that resident's
non-`paid` dues records (`unpaid`, `pending`, `rejected`) are
hard-deleted; the resident's `paid` records and all records of other
residents remain, no record is added, and the user is marked deleted. -/
theorem deleteUser_removes_nonpaid_records (db : DB) (uid now : Nat)
    (u : User) (hfind : findUserById db.users uid = some u) :
    ∃ res db2, deleteUser db uid now = (res, db2) ∧
      (∀ i ∈ db.iurans, i.user ≠ uid → i ∈ db2.iurans) ∧
      (∀ i ∈ db.iurans, i.status = IuranStatus.paid → i ∈ db2.iurans) ∧
      (∀ i ∈ db2.iurans, i ∈ db.iurans) ∧
      (∀ i ∈ db2.iurans, i.user = uid → i.status = IuranStatus.paid) ∧
      (∃ u2, findUserById db2.users uid = some u2 ∧ u2.isDeleted = true) := by
  refine ⟨DeleteUserResult.success (db.iurans.length -
      (db.iurans.filter
        (fun i => !(i.user == uid && i.status != IuranStatus.paid))).length),
    { db with
        users := updateUserById db.users uid
          (fun v => { v with isDeleted := true, deletedAt := some now }),
        iurans := db.iurans.filter
          (fun i => !(i.user == uid && i.status != IuranStatus.paid)),
        files := match u.image_url with
          | some url => deleteImageFile db.files url
          | none => db.files },
    ?_, ?_, ?_, ?_, ?_, ?_⟩
  · simp [deleteUser, hfind]
  · intro i hi hne
    simp [List.mem_filter, hi, hne]
  · intro i hi hpaid
    simp [List.mem_filter, hi, hpaid]
  · intro i hi
    simp only [List.mem_filter] at hi
    exact hi.1
  · intro i hi huser
    simp only [List.mem_filter] at hi
    have := hi.2
    simp [huser] at this
    exact this
  · have hupd := findUserById_update db.users uid
      (fun v => { v with isDeleted := true, deletedAt := some now })
      (fun v => rfl)
    refine ⟨{ u with isDeleted := true, deletedAt := some now }, ?_, rfl⟩
    rw [hupd, hfind]
    rfl

/-- Witness for the amended C9: a store holding a paid record of the
deleted resident, a pending record of the deleted resident, and an unpaid
record of another resident. -/
theorem deleteUser_removes_nonpaid_records_witness :
    findUserById dbC9.users 0 = some userC9 ∧
    (∃ res db2, deleteUser dbC9 0 5 = (res, db2) ∧
      (∀ i ∈ dbC9.iurans, i.user ≠ 0 → i ∈ db2.iurans) ∧
      (∀ i ∈ dbC9.iurans, i.status = IuranStatus.paid → i ∈ db2.iurans) ∧
      (∀ i ∈ db2.iurans, i ∈ dbC9.iurans) ∧
      (∀ i ∈ db2.iurans, i.user = 0 → i.status = IuranStatus.paid) ∧
      (∃ u2, findUserById db2.users 0 = some u2 ∧ u2.isDeleted = true)) :=
  ⟨by decide, deleteUser_removes_nonpaid_records dbC9 0 5 userC9 (by decide)⟩

lemma generateMonthlyLoop_users (period : String) (us : List User) :
    ∀ db : DB, (generateMonthlyLoop period db us).1.users = db.users := by
  induction us with
  | nil => intro db; simp [generateMonthlyLoop]
  | cons u rest ih =>
    intro db
    simp only [generateMonthlyLoop]
    split
    · exact ih db
    · exact ih _

lemma generateMonthlyLoop_mono (period : String) (us : List User) :
    ∀ db : DB, ∀ i ∈ db.iurans,
      i ∈ (generateMonthlyLoop period db us).1.iurans := by
  induction us with
  | nil => intro db i hi; simpa [generateMonthlyLoop] using hi
  | cons u rest ih =>
    intro db i hi
    simp only [generateMonthlyLoop]
    split
    · exact ih db i hi
    · exact ih _ i (by simp [hi])

lemma generateMonthlyLoop_covers (period : String) (us : List User) :
    ∀ db : DB, ∀ u ∈ us,
      ∃ i ∈ (generateMonthlyLoop period db us).1.iurans,
        i.user = u.id ∧ i.period = period ∧ i.type = IuranType.regular := by
  induction us with
  | nil => intro db u hu; simp at hu
  | cons v rest ih =>
    intro db u hu
    rcases List.mem_cons.mp hu with rfl | hu'
    · simp only [generateMonthlyLoop]
      split
      case isTrue h =>
        obtain ⟨i, hfind⟩ := Option.isSome_iff_exists.mp h
        have hmem := List.mem_of_find?_eq_some hfind
        have hpred := List.find?_some hfind
        simp only [Bool.and_eq_true, beq_iff_eq] at hpred
        exact ⟨i, generateMonthlyLoop_mono period rest db i hmem,
          hpred.1.1, hpred.1.2, hpred.2⟩
      case isFalse h =>
        refine ⟨newIuranFor u.id period db.nextIuranId, ?_, rfl, rfl, rfl⟩
        exact generateMonthlyLoop_mono period rest _ _ (by simp)
    · simp only [generateMonthlyLoop]
      split
      · exact ih db u hu'
      · exact ih _ u hu'

lemma generateMonthlyLoop_all_present (period : String) (us : List User) :
    ∀ db : DB,
      (∀ u ∈ us, ∃ i ∈ db.iurans,
        i.user = u.id ∧ i.period = period ∧ i.type = IuranType.regular) →
      generateMonthlyLoop period db us = (db, 0) := by
  induction us with
  | nil => intro db _; simp [generateMonthlyLoop]
  | cons u rest ih =>
    intro db h
    obtain ⟨i, hmem, h1, h2, h3⟩ := h u (List.mem_cons_self u rest)
    have hc : (db.iurans.find? (fun i =>
        i.user == u.id && i.period == period && i.type == IuranType.regular)).isSome = true := by
      rw [List.find?_isSome]
      exact ⟨i, hmem, by simp [h1, h2, h3]⟩
    simp only [generateMonthlyLoop, hc, if_true]
    exact ih db (fun v hv => h v (List.mem_cons_of_mem u hv))

/-- C6: periodic dues generation is idempotent per period - running the
monthly generation a second time for the same period creates zero
additional records and leaves the store untouched (every resident already
holding a regular record for the period is skipped). -/
theorem generateMonthly_idempotent (db : DB) (period : String) :
    generateMonthlyIuran (generateMonthlyIuran db period).1 period =
      ((generateMonthlyIuran db period).1, 0) := by
  unfold generateMonthlyIuran
  rw [generateMonthlyLoop_users]
  apply generateMonthlyLoop_all_present
  intro u hu
  exact generateMonthlyLoop_covers period _ db u hu

lemma pad2_inj (m1 m2 : Nat) (h1 : 1 ≤ m1) (h2 : m1 ≤ 12) (h3 : 1 ≤ m2)
    (h4 : m2 ≤ 12) (h : pad2 m1 = pad2 m2) : m1 = m2 := by
  interval_cases m1 <;> interval_cases m2 <;> revert h <;> decide

lemma mkPeriod_inj (y m1 m2 : Nat) (h1 : 1 ≤ m1) (h2 : m1 ≤ 12) (h3 : 1 ≤ m2)
    (h4 : m2 ≤ 12) (h : mkPeriod y m1 = mkPeriod y m2) : m1 = m2 := by
  apply pad2_inj m1 m2 h1 h2 h3 h4
  have hd := congrArg String.data h
  simp only [mkPeriod, String.data_append] at hd
  apply String.ext
  exact List.append_cancel_left hd

lemma createIuransForMonths_mem (uid year : Nat) (ms : List Nat) :
    ∀ iid, ∀ i ∈ createIuransForMonths uid year ms iid,
      i.user = uid ∧ i.type = IuranType.regular ∧
      i.status = IuranStatus.unpaid ∧ ∃ m ∈ ms, i.period = mkPeriod year m := by
  induction ms with
  | nil => intro iid i hi; simp [createIuransForMonths] at hi
  | cons m rest ih =>
    intro iid i hi
    rcases List.mem_cons.mp hi with rfl | hi'
    · exact ⟨rfl, rfl, rfl, m, List.mem_cons_self m rest, rfl⟩
    · obtain ⟨ha, hb, hc, m', hm', hp⟩ := ih (iid + 1) i hi'
      exact ⟨ha, hb, hc, m', List.mem_cons_of_mem m hm', hp⟩

lemma createIuransForMonths_filter_count (uid year : Nat) (ms : List Nat)
    (p : String) :
    ∀ iid,
      ((createIuransForMonths uid year ms iid).filter
        (fun i => i.user == uid && i.period == p &&
          i.type == IuranType.regular && i.status == IuranStatus.unpaid)).length =
      (ms.filter (fun m => mkPeriod year m == p)).length := by
  induction ms with
  | nil => intro iid; simp [createIuransForMonths]
  | cons m rest ih =>
    intro iid
    simp only [createIuransForMonths, List.filter_cons]
    have hpred : ((newIuranFor uid (mkPeriod year m) iid).user == uid &&
        (newIuranFor uid (mkPeriod year m) iid).period == p &&
        (newIuranFor uid (mkPeriod year m) iid).type == IuranType.regular &&
        (newIuranFor uid (mkPeriod year m) iid).status == IuranStatus.unpaid) =
        (mkPeriod year m == p) := by
      simp [newIuranFor]
    rw [hpred]
    rcases hb : (mkPeriod year m == p) with _ | _ <;>
      simp [hb, ih (iid + 1)]

lemma range'_filter_mkPeriod_count (year month m : Nat) (h0 : 1 ≤ month)
    (hm1 : month ≤ m) (hm2 : m ≤ 12) :
    ((List.range' month (13 - month)).filter
      (fun m' => mkPeriod year m' == mkPeriod year m)).length = 1 := by
  have hmem : m ∈ List.range' month (13 - month) := by
    rw [List.mem_range'_1]
    omega
  have hnd : (List.range' month (13 - month)).Nodup :=
    List.nodup_range' month (13 - month)
  rw [← List.countP_eq_length_filter]
  have hcong : (List.range' month (13 - month)).countP
      (fun m' => mkPeriod year m' == mkPeriod year m) =
      (List.range' month (13 - month)).countP (fun m' => m' == m) := by
    apply List.countP_congr
    intro m' hm'
    rw [List.mem_range'_1] at hm'
    have hb1 : 1 ≤ m' := by omega
    have hb2 : m' ≤ 12 := by omega
    rcases hq : (m' == m) with _ | _
    · rcases hp : (mkPeriod year m' == mkPeriod year m) with _ | _
      · rfl
      · exfalso
        have := mkPeriod_inj year m' m hb1 hb2 (by omega) hm2 (by simpa using hp)
        simp [this] at hq
    · have : m' = m := by simpa using hq
      simp [this]
  rw [hcong]
  have : (List.range' month (13 - month)).countP (fun m' => m' == m) =
      (List.range' month (13 - month)).count m := rfl
  rw [this]
  exact List.count_eq_one_of_mem hnd hmem

/-- C3: registering an active, non-admin resident creates exactly one
unpaid regular dues record for every period from the creation month
through December of the creation year, and no dues record of the new
resident for any other period; pre-existing records are preserved. -/
theorem register_backfills_creation_year (db : DB) (req : RegisterReq)
    (year month : Nat) (hm1 : 1 ≤ month) (hm2 : month ≤ 12)
    (huser : db.users.find? (fun u => u.username == req.username) = none)
    (hemail : db.users.find? (fun u => u.email == req.email) = none)
    (hrole : req.role ≠ Role.admin)
    (hfresh : ∀ i ∈ db.iurans, i.user ≠ db.nextUserId) :
    ∃ u db2, register db req year month = (RegisterResult.success u, db2) ∧
      u.id = db.nextUserId ∧
      (∀ m, month ≤ m → m ≤ 12 →
        ((db2.iurans.filter (fun i => i.user == u.id &&
            i.period == mkPeriod year m && i.type == IuranType.regular &&
            i.status == IuranStatus.unpaid)).length = 1)) ∧
      (∀ i ∈ db2.iurans, i.user = u.id →
        i.type = IuranType.regular ∧ i.status = IuranStatus.unpaid ∧
        ∃ m, month ≤ m ∧ m ≤ 12 ∧ i.period = mkPeriod year m) ∧
      (∀ i ∈ db.iurans, i ∈ db2.iurans) := by
  have hu : (db.users.find? (fun u => u.username == req.username)).isSome = false := by
    rw [huser]; rfl
  have he : (db.users.find? (fun u => u.email == req.email)).isSome = false := by
    rw [hemail]; rfl
  have hr : (req.role != Role.admin) = true := by simpa using hrole
  refine ⟨mkNewUser db req,
    { db with
        users := db.users ++ [mkNewUser db req],
        nextUserId := db.nextUserId + 1,
        iurans := db.iurans ++ createIuransForMonths (mkNewUser db req).id year
          (List.range' month (13 - month)) db.nextIuranId,
        nextIuranId := db.nextIuranId + (createIuransForMonths
          (mkNewUser db req).id year (List.range' month (13 - month))
          db.nextIuranId).length },
    ?_, rfl, ?_, ?_, ?_⟩
  · simp only [register, hu, he, Bool.false_eq_true, if_false, hr,
      Bool.true_and]
    rfl
  · intro m hma hmb
    dsimp only
    rw [List.filter_append]
    have hdbnil : db.iurans.filter (fun i => i.user == (mkNewUser db req).id &&
        i.period == mkPeriod year m && i.type == IuranType.regular &&
        i.status == IuranStatus.unpaid) = [] := by
      rw [List.filter_eq_nil_iff]
      intro i hi
      simp [mkNewUser, hfresh i hi]
    rw [hdbnil]
    simp only [List.nil_append]
    rw [createIuransForMonths_filter_count]
    exact range'_filter_mkPeriod_count year month m hm1 hma hmb
  · intro i hi huid
    dsimp only at hi
    rcases List.mem_append.mp hi with hold | hnew
    · exact absurd huid (hfresh i hold)
    · obtain ⟨_, hb, hc, m', hm', hp⟩ :=
        createIuransForMonths_mem (mkNewUser db req).id year _ db.nextIuranId i hnew
      rw [List.mem_range'_1] at hm'
      exact ⟨hb, hc, m', hm'.1, by omega, hp⟩
  · intro i hi
    dsimp only
    exact List.mem_append_left _ hi

/-- Witness for C3: registering a resident in month 11 of 2025 on an empty
store creates exactly one unpaid regular record for 2025-11 and one for
2025-12 and nothing else. -/
theorem register_backfills_creation_year_witness :
    (1 ≤ 11 ∧ (11 : Nat) ≤ 12) ∧
    ∃ u db2, register emptyDB
        { email := "b@warga.rt", username := "warga dua", role := Role.warga }
        2025 11 = (RegisterResult.success u, db2) ∧
      u.id = emptyDB.nextUserId ∧
      (∀ m, 11 ≤ m → m ≤ 12 →
        ((db2.iurans.filter (fun i => i.user == u.id &&
            i.period == mkPeriod 2025 m && i.type == IuranType.regular &&
            i.status == IuranStatus.unpaid)).length = 1)) ∧
      (∀ i ∈ db2.iurans, i.user = u.id →
        i.type = IuranType.regular ∧ i.status = IuranStatus.unpaid ∧
        ∃ m, 11 ≤ m ∧ m ≤ 12 ∧ i.period = mkPeriod 2025 m) ∧
      (∀ i ∈ emptyDB.iurans, i ∈ db2.iurans) :=
  ⟨⟨by decide, by decide⟩,
   register_backfills_creation_year emptyDB
     { email := "b@warga.rt", username := "warga dua", role := Role.warga }
     2025 11 (by decide) (by decide) (by decide) (by decide) (by decide)
     (by intro i hi; simp [emptyDB] at hi)⟩

/-! ## Proof submission by a resident (src/unnamed/part_007 lines 127-210) -/

def findIuranById (l : List Iuran) (iid : Nat) : Option Iuran :=
  l.find? (fun i => i.id == iid)

def updateIuranById : List Iuran → Nat → (Iuran → Iuran) → List Iuran
  | [], _, _ => []
  | i :: rest, iid, f =>
    if i.id == iid then f i :: rest else i :: updateIuranById rest iid f

/-- The `findByIdAndUpdate` payload of `submitPayment`: store the proof
url, transition to pending, stamp the submission time. -/
def submitUpdate (f : String) (now : Nat) (i : Iuran) : Iuran :=
  { i with proof_image_url := some ("/uploads/" ++ f),
           status := IuranStatus.pending, submitted_at := some now }

inductive SubmitPaymentResult
  | unauthorizedMsg (msg : String)
  | validationError (msg : String)
  | notFound
  | ok (i : Iuran)
deriving DecidableEq, Repr

/-- `submitPayment` from src/unnamed/part_007 lines 127-210: requires a
caller and an uploaded proof image; NotFound when the record is missing,
an ownership rejection when the record is not the caller's own, a
rejection when the record is already `paid` or already `pending`
(invalid state transition); otherwise the previously stored proof image is
deleted (best-effort) and the record gets the new proof url, status
`pending` and a submission timestamp. -/
def submitPayment (db : DB) (wargaId : Option Nat) (iid : Nat)
    (file : Option String) (now : Nat) : SubmitPaymentResult × DB :=
  match wargaId with
  | none => (SubmitPaymentResult.unauthorizedMsg "unauthorized", db)
  | some wid =>
    match file with
    | none => (SubmitPaymentResult.validationError "Proof image is required", db)
    | some f =>
      match findIuranById db.iurans iid with
      | none => (SubmitPaymentResult.notFound, db)
      | some iuran =>
        if iuran.user != wid then
          (SubmitPaymentResult.unauthorizedMsg "you can only submit your own payment", db)
        else if iuran.status == IuranStatus.paid then
          (SubmitPaymentResult.validationError "iuran already paid", db)
        else if iuran.status == IuranStatus.pending then
          (SubmitPaymentResult.validationError
            "iuran already submitted, waiting for confirmation", db)
        else
          let files1 :=
            match iuran.proof_image_url with
            | some url => deleteImageFile db.files url
            | none => db.files
          (SubmitPaymentResult.ok (submitUpdate f now iuran),
           { db with iurans := updateIuranById db.iurans iid (submitUpdate f now),
                     files := files1 })

/-! ## Bulk payment recording (src/src/controller/iuran.controller.ts
lines 87-211) -/

/-- The numeric value of the `amount` body field after `Number(...)`:
missing / JS-falsy, non-numeric (`NaN`), or a number. -/
inductive AmountVal
  | absent
  | nonNumeric
  | num (n : Int)
deriving DecidableEq, Repr

structure RecordPaymentReq where
  userId : Option Nat
  amount : AmountVal
  periods : Option (List String)
  payment_date : Option Nat := none
  payment_method : Option String := none
  note : Option String := none
deriving DecidableEq, Repr

inductive RecordPaymentResult
  | unauthorized
  | validationError (msg : String)
  | notFoundUser
  | ok (success failed : Nat) (updatedIuran : List Iuran) (errors : List String)
deriving DecidableEq, Repr

/-- `REQUIRED_AMOUNT_PER_PERIOD` (iuran.controller.ts line 126). -/
def REQUIRED_AMOUNT_PER_PERIOD : Int := 50000

/-- `x || null`. -/
def jsOrNull : Option String → Option String
  | some s => if s == "" then none else some s
  | none => none

/-- The `findOne({user, period, status: UNPAID})` query predicate of the
per-period loop. -/
def rpMatch (uid : Nat) (p : String) (i : Iuran) : Bool :=
  i.user == uid && i.period == p && i.status == IuranStatus.unpaid

/-- The `findByIdAndUpdate` payload of the per-period loop: transition to
paid, overwrite the amount with `String(amountPerPeriod)`, stamp payment
metadata, the confirmation time and the recording officer. -/
def rpApply (now paymentDate : Nat) (method note : Option String) (bid : Nat)
    (i : Iuran) : Iuran :=
  { i with status := IuranStatus.paid, amount := REQUIRED_AMOUNT_PER_PERIOD,
           payment_date := some paymentDate,
           payment_method := jsOrNull method, note := jsOrNull note,
           confirmed_at := some now, confirmed_by := some bid,
           recorded_by := some bid }

/-- `findOne` followed by `findByIdAndUpdate` on the found document
(MongoDB `_id`s are unique, so this is: replace the first record matching
the query, returning the updated document). -/
def rpFindAndMark (uid : Nat) (upd : Iuran → Iuran) (p : String) :
    List Iuran → Option (List Iuran × Iuran)
  | [] => none
  | i :: rest =>
    if rpMatch uid p i then some (upd i :: rest, upd i)
    else (rpFindAndMark uid upd p rest).map (fun r => (i :: r.1, r.2))

/-- The per-period failure message pushed into the error list. -/
def errMsgNoUnpaid (p : String) : String :=
  "Period " ++ p ++ ": No unpaid iuran found"

/-- The `for (const period of periods)` loop: returns the final dues
store, the updated documents, and the error messages, in input order. -/
def rpLoop (uid : Nat) (upd : Iuran → Iuran) :
    List Iuran → List String → List Iuran × List Iuran × List String
  | iurans, [] => (iurans, [], [])
  | iurans, p :: ps =>
    match rpFindAndMark uid upd p iurans with
    | some r =>
      let rest := rpLoop uid upd r.1 ps
      (rest.1, r.2 :: rest.2.1, rest.2.2)
    | none =>
      let rest := rpLoop uid upd iurans ps
      (rest.1, rest.2.1, errMsgNoUnpaid p :: rest.2.2)

/-- `recordPayment` from src/src/controller/iuran.controller.ts lines
87-211: requires a caller; `userId`, a truthy `amount` and a non-empty
`periods` array; an existing target user; a numeric positive amount equal
to exactly 50000 per listed period; then processes each period, collecting
per-period successes and failures (the localized wording of the
amount-mismatch message is elided). -/
def recordPayment (db : DB) (bendaharaId : Option Nat)
    (req : RecordPaymentReq) (now : Nat) : RecordPaymentResult × DB :=
  match bendaharaId with
  | none => (RecordPaymentResult.unauthorized, db)
  | some bid =>
    match req.userId, req.amount, req.periods with
    | none, _, _ =>
      (RecordPaymentResult.validationError
        "userId, amount, and periods array are required", db)
    | _, AmountVal.absent, _ =>
      (RecordPaymentResult.validationError
        "userId, amount, and periods array are required", db)
    | _, _, none =>
      (RecordPaymentResult.validationError
        "userId, amount, and periods array are required", db)
    | some uid, amt, some periods =>
      if periods.length == 0 then
        (RecordPaymentResult.validationError
          "userId, amount, and periods array are required", db)
      else
        match findUserById db.users uid with
        | none => (RecordPaymentResult.notFoundUser, db)
        | some _ =>
          match amt with
          | AmountVal.absent =>
            (RecordPaymentResult.validationError "invalid amount", db)
          | AmountVal.nonNumeric =>
            (RecordPaymentResult.validationError "invalid amount", db)
          | AmountVal.num totalAmount =>
            if totalAmount ≤ 0 then
              (RecordPaymentResult.validationError "invalid amount", db)
            else if totalAmount != REQUIRED_AMOUNT_PER_PERIOD * periods.length then
              (RecordPaymentResult.validationError
                ("invalid amount for " ++ toString periods.length ++ " period(s)"), db)
            else
              let paymentDate := req.payment_date.getD now
              let r := rpLoop uid
                (rpApply now paymentDate req.payment_method req.note bid)
                db.iurans periods
              (RecordPaymentResult.ok r.2.1.length r.2.2.length r.2.1 r.2.2,
               { db with iurans := r.1 })

lemma findIuranById_update (l : List Iuran) (iid : Nat) (f : Iuran → Iuran)
    (hf : ∀ i, (f i).id = i.id) :
    findIuranById (updateIuranById l iid f) iid = (findIuranById l iid).map f := by
  induction l with
  | nil => simp [findIuranById, updateIuranById]
  | cons i rest ih =>
    rcases hb : (i.id == iid) with _ | _
    · have hb' : (i.id == iid) = false := hb
      simp only [updateIuranById, hb', Bool.false_eq_true, if_false]
      rw [findIuranById, List.find?, hb', findIuranById, List.find?, hb']
      exact ih
    · have hb' : (i.id == iid) = true := hb
      simp only [updateIuranById, hb', if_true]
      rw [findIuranById, List.find?, findIuranById, List.find?, hb']
      have : ((f i).id == iid) = true := by rw [hf i]; exact hb'
      rw [this]
      rfl

lemma updateIuranById_mem (l : List Iuran) (iid : Nat) (f : Iuran → Iuran) :
    ∀ j ∈ updateIuranById l iid f,
      j ∈ l ∨ ∃ i, findIuranById l iid = some i ∧ j = f i := by
  induction l with
  | nil => intro j hj; simp [updateIuranById] at hj
  | cons i rest ih =>
    intro j hj
    rcases hb : (i.id == iid) with _ | _
    · have hb' : (i.id == iid) = false := hb
      rw [updateIuranById, hb'] at hj
      simp only [Bool.false_eq_true, if_false] at hj
      rcases List.mem_cons.mp hj with rfl | hj'
      · exact Or.inl (List.mem_cons_self j rest)
      · rcases ih j hj' with h | ⟨i', hi', he⟩
        · exact Or.inl (List.mem_cons_of_mem i h)
        · refine Or.inr ⟨i', ?_, he⟩
          rw [findIuranById, List.find?, hb']
          exact hi'
    · have hb' : (i.id == iid) = true := hb
      rw [updateIuranById, hb'] at hj
      simp only [if_true] at hj
      rcases List.mem_cons.mp hj with rfl | hj'
      · refine Or.inr ⟨i, ?_, rfl⟩
        rw [findIuranById, List.find?, hb']
      · exact Or.inl (List.mem_cons_of_mem i hj')

/-- C4: `submitPayment` fails with NotFound when the dues record is
missing, with an ownership rejection when the record is not the caller's,
and with an invalid-state rejection when the record is already paid or
already pending (each rejection leaving the store unchanged); otherwise it
stores the proof url, stamps the submission time, transitions the record
to pending, and deletes any previously stored proof image. -/
theorem submitPayment_checks_and_transition (db : DB) (wid iid : Nat)
    (f : String) (now : Nat) :
    (findIuranById db.iurans iid = none →
      submitPayment db (some wid) iid (some f) now =
        (SubmitPaymentResult.notFound, db)) ∧
    (∀ i, findIuranById db.iurans iid = some i → i.user ≠ wid →
      submitPayment db (some wid) iid (some f) now =
        (SubmitPaymentResult.unauthorizedMsg "you can only submit your own payment", db)) ∧
    (∀ i, findIuranById db.iurans iid = some i → i.user = wid →
      i.status = IuranStatus.paid →
      submitPayment db (some wid) iid (some f) now =
        (SubmitPaymentResult.validationError "iuran already paid", db)) ∧
    (∀ i, findIuranById db.iurans iid = some i → i.user = wid →
      i.status = IuranStatus.pending →
      submitPayment db (some wid) iid (some f) now =
        (SubmitPaymentResult.validationError
          "iuran already submitted, waiting for confirmation", db)) ∧
    (∀ i, findIuranById db.iurans iid = some i → i.user = wid →
      i.status ≠ IuranStatus.paid → i.status ≠ IuranStatus.pending →
      ∃ db2, submitPayment db (some wid) iid (some f) now =
          (SubmitPaymentResult.ok (submitUpdate f now i), db2) ∧
        (submitUpdate f now i).status = IuranStatus.pending ∧
        (submitUpdate f now i).proof_image_url = some ("/uploads/" ++ f) ∧
        (submitUpdate f now i).submitted_at = some now ∧
        findIuranById db2.iurans iid = some (submitUpdate f now i) ∧
        db2.files = (match i.proof_image_url with
          | some url => deleteImageFile db.files url
          | none => db.files) ∧
        (∀ j ∈ db2.iurans, j ∈ db.iurans ∨ j = submitUpdate f now i)) := by
  refine ⟨?_, ?_, ?_, ?_, ?_⟩
  · intro hfind
    simp [submitPayment, hfind]
  · intro i hfind hown
    have : (i.user != wid) = true := by simpa using hown
    simp [submitPayment, hfind, this]
  · intro i hfind hown hpaid
    have h1 : (i.user != wid) = false := by simp [hown]
    simp [submitPayment, hfind, h1, hpaid]
  · intro i hfind hown hpend
    have h1 : (i.user != wid) = false := by simp [hown]
    simp [submitPayment, hfind, h1, hpend]
  · intro i hfind hown hnp hnpend
    have h1 : (i.user != wid) = false := by simp [hown]
    have h2 : (i.status == IuranStatus.paid) = false := by simp [hnp]
    have h3 : (i.status == IuranStatus.pending) = false := by simp [hnpend]
    refine ⟨{ db with
        iurans := updateIuranById db.iurans iid (submitUpdate f now),
        files := match i.proof_image_url with
          | some url => deleteImageFile db.files url
          | none => db.files },
      ?_, rfl, rfl, rfl, ?_, rfl, ?_⟩
    · simp [submitPayment, hfind, h1, h2, h3]
    · have := findIuranById_update db.iurans iid (submitUpdate f now)
        (fun j => rfl)
      dsimp only
      rw [this, hfind]
      rfl
    · intro j hj
      rcases updateIuranById_mem db.iurans iid (submitUpdate f now) j hj with
        h | ⟨i', hfind', he⟩
      · exact Or.inl h
      · rw [hfind] at hfind'
        cases hfind'
        exact Or.inr he

/-- A rejected dues record with a previously stored proof image, for the
C4 witness (resubmission over a rejected record). -/
def iuranRejC4 : Iuran :=
  { id := 9, user := 4, period := "2025-02", amount := 50000,
    status := IuranStatus.rejected, proof_image_url := some "/uploads/old.jpg" }

/-- A store holding [[iuranRejC4]] and its stored proof image file. -/
def dbC4 : DB :=
  { emptyDB with iurans := [iuranRejC4],
                 files := ["/uploads/old.jpg", "/uploads/other.png"] }

/-- Witness for C4: resident 4 resubmits proof over their rejected record;
the record transitions to pending with the new proof url and the old proof
image is deleted. -/
theorem submitPayment_checks_and_transition_witness :
    findIuranById dbC4.iurans 9 = some iuranRejC4 ∧
    iuranRejC4.user = 4 ∧
    iuranRejC4.status ≠ IuranStatus.paid ∧
    iuranRejC4.status ≠ IuranStatus.pending ∧
    (∃ db2, submitPayment dbC4 (some 4) 9 (some "new.jpg") 77 =
        (SubmitPaymentResult.ok (submitUpdate "new.jpg" 77 iuranRejC4), db2) ∧
      (submitUpdate "new.jpg" 77 iuranRejC4).status = IuranStatus.pending ∧
      (submitUpdate "new.jpg" 77 iuranRejC4).proof_image_url =
        some ("/uploads/" ++ "new.jpg") ∧
      (submitUpdate "new.jpg" 77 iuranRejC4).submitted_at = some 77 ∧
      findIuranById db2.iurans 9 = some (submitUpdate "new.jpg" 77 iuranRejC4) ∧
      db2.files = (match iuranRejC4.proof_image_url with
        | some url => deleteImageFile dbC4.files url
        | none => dbC4.files) ∧
      (∀ j ∈ db2.iurans, j ∈ dbC4.iurans ∨ j = submitUpdate "new.jpg" 77 iuranRejC4)) :=
  ⟨by decide, by decide, by decide, by decide,
   (submitPayment_checks_and_transition dbC4 4 9 "new.jpg" 77).2.2.2.2
     iuranRejC4 (by decide) (by decide) (by decide) (by decide)⟩

lemma rpMatch_period (uid : Nat) (p : String) (i : Iuran)
    (h : rpMatch uid p i = true) : i.period = p := by
  simp only [rpMatch, Bool.and_eq_true, beq_iff_eq] at h
  exact h.1.2

lemma rpFindAndMark_eq_none (uid : Nat) (upd : Iuran → Iuran) (p : String)
    (l : List Iuran) :
    rpFindAndMark uid upd p l = none ↔ ∀ i ∈ l, rpMatch uid p i = false := by
  induction l with
  | nil => simp [rpFindAndMark]
  | cons i rest ih =>
    rw [rpFindAndMark]
    rcases h : rpMatch uid p i with _ | _
    · simp only [Bool.false_eq_true, if_false, Option.map_eq_none', ih,
        List.mem_cons]
      constructor
      · intro hall j hj
        rcases hj with rfl | hj'
        · exact h
        · exact hall j hj'
      · intro hall j hj
        exact hall j (Or.inr hj)
    · simp only [if_true]
      constructor
      · intro hc; cases hc
      · intro hall
        have := hall i (List.mem_cons_self i rest)
        rw [h] at this
        cases this

lemma rpFindAndMark_eq_some (uid : Nat) (upd : Iuran → Iuran) (p : String)
    (l : List Iuran) :
    ∀ l' j, rpFindAndMark uid upd p l = some (l', j) →
      ∃ pre i suf, l = pre ++ i :: suf ∧ l' = pre ++ upd i :: suf ∧
        rpMatch uid p i = true ∧ j = upd i := by
  induction l with
  | nil => intro l' j h; simp [rpFindAndMark] at h
  | cons i rest ih =>
    intro l' j h
    rw [rpFindAndMark] at h
    rcases hm : rpMatch uid p i with _ | _
    · rw [hm] at h
      simp only [Bool.false_eq_true, if_false, Option.map_eq_some'] at h
      obtain ⟨r, hr, hfr⟩ := h
      obtain ⟨pre, i0, suf, hl, hl', hm0, hj⟩ := ih r.1 r.2 (by
        rw [hr])
      refine ⟨i :: pre, i0, suf, ?_, ?_, hm0, ?_⟩
      · rw [List.cons_append, ← hl]
      · have h1 : l' = i :: r.1 := by
          have := congrArg Prod.fst hfr
          simpa using this.symm
        rw [h1, hl', List.cons_append]
      · have h2 : j = r.2 := by
          have := congrArg Prod.snd hfr
          simpa using this.symm
        rw [h2, hj]
    · rw [hm] at h
      simp only [if_true, Option.some.injEq, Prod.mk.injEq] at h
      refine ⟨[], i, rest, by simp, ?_, hm, h.2.symm⟩
      simp [h.1.symm]

lemma rpFindAndMark_preserves_none (uid : Nat) (upd : Iuran → Iuran)
    (p q : String) (l l' : List Iuran) (j : Iuran)
    (hupd : ∀ i q, rpMatch uid q (upd i) = false)
    (h : rpFindAndMark uid upd p l = some (l', j))
    (hnone : ∀ i ∈ l, rpMatch uid q i = false) :
    ∀ i ∈ l', rpMatch uid q i = false := by
  obtain ⟨pre, i0, suf, hl, hl', _, _⟩ := rpFindAndMark_eq_some uid upd p l l' j h
  subst hl hl'
  intro x hx
  rcases List.mem_append.mp hx with hx | hx
  · exact hnone x (List.mem_append_left _ hx)
  · rcases List.mem_cons.mp hx with rfl | hx'
    · exact hupd i0 q
    · exact hnone x (List.mem_append_right _ (List.mem_cons_of_mem i0 hx'))

lemma rpFindAndMark_preserves_match (uid : Nat) (upd : Iuran → Iuran)
    (p q : String) (l l' : List Iuran) (j : Iuran) (hpq : q ≠ p)
    (h : rpFindAndMark uid upd p l = some (l', j))
    (hex : ∃ i ∈ l, rpMatch uid q i = true) :
    ∃ i ∈ l', rpMatch uid q i = true := by
  obtain ⟨pre, i0, suf, hl, hl', hm0, _⟩ := rpFindAndMark_eq_some uid upd p l l' j h
  subst hl hl'
  obtain ⟨x, hx, hmx⟩ := hex
  rcases List.mem_append.mp hx with hx | hx
  · exact ⟨x, List.mem_append_left _ hx, hmx⟩
  · rcases List.mem_cons.mp hx with rfl | hx'
    · exfalso
      have h1 := rpMatch_period uid q x hmx
      have h2 := rpMatch_period uid p x hm0
      exact hpq (h1 ▸ h2 ▸ rfl)
    · exact ⟨x, List.mem_append_right _ (List.mem_cons_of_mem _ hx'), hmx⟩

lemma rpFindAndMark_mem_rev (uid : Nat) (upd : Iuran → Iuran) (p : String)
    (l l' : List Iuran) (j : Iuran)
    (h : rpFindAndMark uid upd p l = some (l', j)) :
    ∀ x ∈ l', x ∈ l ∨ x = j := by
  obtain ⟨pre, i0, suf, hl, hl', _, hj⟩ := rpFindAndMark_eq_some uid upd p l l' j h
  subst hl hl' hj
  intro x hx
  rcases List.mem_append.mp hx with hx | hx
  · exact Or.inl (List.mem_append_left _ hx)
  · rcases List.mem_cons.mp hx with rfl | hx'
    · exact Or.inr rfl
    · exact Or.inl (List.mem_append_right _ (List.mem_cons_of_mem i0 hx'))

lemma rpLoop_counts (uid : Nat) (upd : Iuran → Iuran) (ps : List String) :
    ∀ l : List Iuran,
      (rpLoop uid upd l ps).2.1.length + (rpLoop uid upd l ps).2.2.length =
        ps.length := by
  induction ps with
  | nil => intro l; simp [rpLoop]
  | cons p ps ih =>
    intro l
    rw [rpLoop]
    rcases hf : rpFindAndMark uid upd p l with _ | r
    · have := ih l
      simp only [List.length_cons]
      omega
    · have := ih r.1
      simp only [List.length_cons]
      omega

lemma rpLoop_success (uid : Nat) (upd : Iuran → Iuran)
    (hper : ∀ i, (upd i).period = i.period) (ps : List String) :
    ∀ (l : List Iuran) (p : String), p ∈ ps →
      (∃ i ∈ l, rpMatch uid p i = true) →
      ∃ u ∈ (rpLoop uid upd l ps).2.1, u.period = p := by
  induction ps with
  | nil => intro l p hp; simp at hp
  | cons p0 ps ih =>
    intro l p hp hex
    rw [rpLoop]
    rcases hf : rpFindAndMark uid upd p0 l with _ | r
    · rcases List.mem_cons.mp hp with rfl | hp'
      · exfalso
        obtain ⟨i, hi, hm⟩ := hex
        have := (rpFindAndMark_eq_none uid upd p l).mp hf i hi
        rw [hm] at this
        cases this
      · obtain ⟨u, hu, hup⟩ := ih l p hp' hex
        exact ⟨u, hu, hup⟩
    · obtain ⟨l₁, j⟩ := r
      by_cases hpp : p = p0
      · subst hpp
        obtain ⟨pre, i0, suf, _, _, hm0, hj⟩ :=
          rpFindAndMark_eq_some uid upd p l l₁ j hf
        refine ⟨j, List.mem_cons_self j _, ?_⟩
        rw [hj, hper i0, rpMatch_period uid p i0 hm0]
      · have hp' : p ∈ ps := by
          rcases List.mem_cons.mp hp with h | h
          · exact absurd h hpp
          · exact h
        have hex1 := rpFindAndMark_preserves_match uid upd p0 p l l₁ j hpp hf hex
        obtain ⟨u, hu, hup⟩ := ih l₁ p hp' hex1
        exact ⟨u, List.mem_cons_of_mem j hu, hup⟩

lemma rpLoop_errors (uid : Nat) (upd : Iuran → Iuran)
    (hupd : ∀ i q, rpMatch uid q (upd i) = false) (ps : List String) :
    ∀ (l : List Iuran) (p : String), p ∈ ps →
      (∀ i ∈ l, rpMatch uid p i = false) →
      errMsgNoUnpaid p ∈ (rpLoop uid upd l ps).2.2 := by
  induction ps with
  | nil => intro l p hp; simp at hp
  | cons p0 ps ih =>
    intro l p hp hnone
    rw [rpLoop]
    rcases hf : rpFindAndMark uid upd p0 l with _ | r
    · rcases List.mem_cons.mp hp with rfl | hp'
      · exact List.mem_cons_self _ _
      · exact List.mem_cons_of_mem _ (ih l p hp' hnone)
    · obtain ⟨l₁, j⟩ := r
      have hpp : p ≠ p0 := by
        rintro rfl
        obtain ⟨pre, i0, suf, hl, _, hm0, _⟩ :=
          rpFindAndMark_eq_some uid upd p l l₁ j hf
        have : i0 ∈ l := by
          rw [hl]; exact List.mem_append_right _ (List.mem_cons_self i0 suf)
        have := hnone i0 this
        rw [hm0] at this
        cases this
      have hp' : p ∈ ps := by
        rcases List.mem_cons.mp hp with h | h
        · exact absurd h hpp
        · exact h
      exact ih l₁ p hp'
        (rpFindAndMark_preserves_none uid upd p0 p l l₁ j hupd hf hnone)

lemma rpLoop_updated_only (uid : Nat) (upd : Iuran → Iuran)
    (hupd : ∀ i q, rpMatch uid q (upd i) = false)
    (hper : ∀ i, (upd i).period = i.period) (ps : List String) :
    ∀ l : List Iuran, ∀ u ∈ (rpLoop uid upd l ps).2.1,
      u.period ∈ ps ∧ ∃ i ∈ l, rpMatch uid u.period i = true ∧ u = upd i := by
  induction ps with
  | nil => intro l u hu; simp [rpLoop] at hu
  | cons p0 ps ih =>
    intro l u hu
    rw [rpLoop] at hu
    rcases hf : rpFindAndMark uid upd p0 l with _ | r
    · rw [hf] at hu
      obtain ⟨hmem, hrest⟩ := ih l u hu
      exact ⟨List.mem_cons_of_mem p0 hmem, hrest⟩
    · obtain ⟨l₁, j⟩ := r
      rw [hf] at hu
      rcases List.mem_cons.mp hu with rfl | hu'
      · obtain ⟨pre, i0, suf, hl, _, hm0, hj⟩ :=
          rpFindAndMark_eq_some uid upd p0 l l₁ u hf
        have hupid : u.period = p0 := by
          rw [hj, hper i0, rpMatch_period uid p0 i0 hm0]
        refine ⟨hupid ▸ List.mem_cons_self p0 ps, i0, ?_, ?_, hj⟩
        · rw [hl]; exact List.mem_append_right _ (List.mem_cons_self i0 suf)
        · rw [hupid]; exact hm0
      · obtain ⟨hmem, i1, hi1, hm1, hu1⟩ := ih l₁ u hu'
        refine ⟨List.mem_cons_of_mem p0 hmem, ?_⟩
        rcases rpFindAndMark_mem_rev uid upd p0 l l₁ j hf i1 hi1 with h | rfl
        · exact ⟨i1, h, hm1, hu1⟩
        · exfalso
          obtain ⟨pre, i0, suf, _, _, _, hj⟩ :=
            rpFindAndMark_eq_some uid upd p0 l l₁ i1 hf
          rw [hj] at hm1
          have := hupd i0 u.period
          rw [hm1] at this
          cases this

lemma rpApply_nomatch (now pd : Nat) (pm note : Option String) (bid uid : Nat) :
    ∀ i q, rpMatch uid q (rpApply now pd pm note bid i) = false := by
  intro i q
  simp [rpMatch, rpApply]

/-- C5: a `recordPayment` call over a list of periods transitions exactly
the listed periods having a matching unpaid record of the target resident
to paid (stamping payment metadata and the recording officer), reports
every listed period without a matching unpaid record in the error list,
and returns a success count plus failure count equal to the number of
input periods. -/
theorem recordPayment_partial_batch (db : DB) (bid uid : Nat)
    (periods : List String) (amount : Int) (pd : Option Nat)
    (pm note : Option String) (now : Nat) (usr : User)
    (hfindu : findUserById db.users uid = some usr)
    (hne : periods ≠ [])
    (hamt : amount = REQUIRED_AMOUNT_PER_PERIOD * periods.length) :
    ∃ updated errors db2,
      recordPayment db (some bid)
        { userId := some uid, amount := AmountVal.num amount,
          periods := some periods, payment_date := pd,
          payment_method := pm, note := note } now =
        (RecordPaymentResult.ok updated.length errors.length updated errors, db2) ∧
      updated.length + errors.length = periods.length ∧
      (∀ p ∈ periods, (∃ i ∈ db.iurans, rpMatch uid p i = true) →
        ∃ u ∈ updated, u.period = p) ∧
      (∀ p ∈ periods, (∀ i ∈ db.iurans, rpMatch uid p i = false) →
        errMsgNoUnpaid p ∈ errors) ∧
      (∀ u ∈ updated, u.period ∈ periods ∧ u.status = IuranStatus.paid ∧
        u.confirmed_by = some bid ∧ u.recorded_by = some bid ∧
        ∃ i ∈ db.iurans, i.user = uid ∧ i.status = IuranStatus.unpaid ∧
          i.period = u.period ∧ u = rpApply now (pd.getD now) pm note bid i) := by
  have hlen1 : 1 ≤ periods.length := by
    cases periods with
    | nil => exact absurd rfl hne
    | cons a l => simp
  have hlen : (periods.length == 0) = false := by
    rw [beq_eq_false_iff_ne]
    omega
  have hpos : ¬ amount ≤ 0 := by
    rw [hamt, REQUIRED_AMOUNT_PER_PERIOD]
    have h1 : (1 : Int) ≤ periods.length := by exact_mod_cast hlen1
    nlinarith
  have hbne : (amount != REQUIRED_AMOUNT_PER_PERIOD * (periods.length : Int)) = false := by
    simp [hamt]
  refine ⟨(rpLoop uid (rpApply now (pd.getD now) pm note bid) db.iurans periods).2.1,
    (rpLoop uid (rpApply now (pd.getD now) pm note bid) db.iurans periods).2.2,
    { db with iurans :=
        (rpLoop uid (rpApply now (pd.getD now) pm note bid) db.iurans periods).1 },
    ?_, ?_, ?_, ?_, ?_⟩
  · simp only [recordPayment, hlen, Bool.false_eq_true, if_false, hfindu,
      if_neg hpos, hbne]
  · exact rpLoop_counts uid _ periods db.iurans
  · intro p hp hex
    exact rpLoop_success uid (rpApply now (pd.getD now) pm note bid)
      (fun i => rfl) periods db.iurans p hp hex
  · intro p hp hnone
    exact rpLoop_errors uid _ (rpApply_nomatch now (pd.getD now) pm note bid uid)
      periods db.iurans p hp hnone
  · intro u hu
    obtain ⟨hmem, i, hi, hm, hui⟩ := rpLoop_updated_only uid _
      (rpApply_nomatch now (pd.getD now) pm note bid uid) (fun i => rfl)
      periods db.iurans u hu
    simp only [rpMatch, Bool.and_eq_true, beq_iff_eq] at hm
    refine ⟨hmem, ?_, ?_, ?_, i, hi, hm.1.1, hm.2, hm.1.2, hui⟩
    · rw [hui]; rfl
    · rw [hui]; rfl
    · rw [hui]; rfl

/-- A non-admin resident with id 4, for the C5 / C10 witnesses. -/
def userC5 : User :=
  { id := 4, email := "c@warga.rt", username := "warga tiga", role := Role.warga }

/-- An unpaid dues record of resident 4 for 2025-01 with a non-standard
stored amount. -/
def iuranUnpaidC5 : Iuran :=
  { id := 11, user := 4, period := "2025-01", amount := 42,
    status := IuranStatus.unpaid }

/-- A store holding [[userC5]] and [[iuranUnpaidC5]]. -/
def dbC5 : DB := { emptyDB with users := [userC5], iurans := [iuranUnpaidC5] }

/-- Witness for C5: recording periods 2025-01 (matching record exists) and
2025-03 (no record) for resident 4 with amount 100000. -/
theorem recordPayment_partial_batch_witness :
    findUserById dbC5.users 4 = some userC5 ∧
    (["2025-01", "2025-03"] : List String) ≠ [] ∧
    (100000 : Int) = REQUIRED_AMOUNT_PER_PERIOD * (["2025-01", "2025-03"] : List String).length ∧
    (∃ updated errors db2,
      recordPayment dbC5 (some 7)
        { userId := some 4, amount := AmountVal.num 100000,
          periods := some ["2025-01", "2025-03"], payment_date := none,
          payment_method := none, note := none } 50 =
        (RecordPaymentResult.ok updated.length errors.length updated errors, db2) ∧
      updated.length + errors.length = (["2025-01", "2025-03"] : List String).length ∧
      (∀ p ∈ (["2025-01", "2025-03"] : List String),
        (∃ i ∈ dbC5.iurans, rpMatch 4 p i = true) → ∃ u ∈ updated, u.period = p) ∧
      (∀ p ∈ (["2025-01", "2025-03"] : List String),
        (∀ i ∈ dbC5.iurans, rpMatch 4 p i = false) →
        errMsgNoUnpaid p ∈ errors) ∧
      (∀ u ∈ updated, u.period ∈ (["2025-01", "2025-03"] : List String) ∧
        u.status = IuranStatus.paid ∧
        u.confirmed_by = some 7 ∧ u.recorded_by = some 7 ∧
        ∃ i ∈ dbC5.iurans, i.user = 4 ∧ i.status = IuranStatus.unpaid ∧
          i.period = u.period ∧ u = rpApply 50 ((none : Option Nat).getD 50) none none 7 i)) :=
  ⟨by decide, by decide, by decide,
   recordPayment_partial_batch dbC5 7 4 ["2025-01", "2025-03"] 100000 none
     none none 50 userC5 (by decide) (by decide) (by decide)⟩

/-- C10: `recordPayment` rejects with a validation error - before touching
any dues record - every request whose amount is not exactly 50000 times
the number of listed periods (missing, non-numeric, non-positive, too low
and too high amounts are all rejected, the store returned unchanged); and
on every successful call each updated record's amount is overwritten to
50000 (and its status to paid) regardless of the amount previously
stored. -/
theorem recordPayment_amount_rules :
    (∀ (db : DB) (bid uid : Nat) (periods : List String) (av : AmountVal)
        (pd : Option Nat) (pm note : Option String) (now : Nat) (usr : User),
      findUserById db.users uid = some usr →
      periods ≠ [] →
      (av = AmountVal.absent ∨ av = AmountVal.nonNumeric ∨
        ∃ n, av = AmountVal.num n ∧
          (n ≤ 0 ∨ n ≠ REQUIRED_AMOUNT_PER_PERIOD * periods.length)) →
      ∃ msg, recordPayment db (some bid)
          { userId := some uid, amount := av, periods := some periods,
            payment_date := pd, payment_method := pm, note := note } now =
        (RecordPaymentResult.validationError msg, db)) ∧
    (∀ (db : DB) (bidOpt : Option Nat) (req : RecordPaymentReq) (now : Nat)
        (s fl : Nat) (updated : List Iuran) (errors : List String) (db2 : DB),
      recordPayment db bidOpt req now =
        (RecordPaymentResult.ok s fl updated errors, db2) →
      ∀ u ∈ updated, u.amount = REQUIRED_AMOUNT_PER_PERIOD ∧
        u.status = IuranStatus.paid) := by
  constructor
  · intro db bid uid periods av pd pm note now usr hfindu hne hbad
    have hlen1 : 1 ≤ periods.length := by
      cases periods with
      | nil => exact absurd rfl hne
      | cons a l => simp
    have hlen : (periods.length == 0) = false := by
      rw [beq_eq_false_iff_ne]
      omega
    rcases hbad with rfl | rfl | ⟨n, rfl, hn⟩
    · exact ⟨"userId, amount, and periods array are required",
        by simp [recordPayment]⟩
    · exact ⟨"invalid amount", by simp [recordPayment, hlen, hfindu]⟩
    · by_cases hle : n ≤ 0
      · exact ⟨"invalid amount", by simp [recordPayment, hlen, hfindu, hle]⟩
      · have hne2 : n ≠ REQUIRED_AMOUNT_PER_PERIOD * (periods.length : Int) := by
          rcases hn with h | h
          · exact absurd h hle
          · exact h
        refine ⟨"invalid amount for " ++ toString periods.length ++ " period(s)", ?_⟩
        simp only [recordPayment, hlen, Bool.false_eq_true, if_false, hfindu,
          if_neg hle, bne_iff_ne, ne_eq, hne2, not_false_eq_true, if_true]
  · intro db bidOpt req now s fl updated errors db2 h
    obtain ⟨userId, amount, periods, pdq, pmq, noteq⟩ := req
    cases bidOpt with
    | none => simp [recordPayment] at h
    | some bid =>
      cases userId with
      | none => simp [recordPayment] at h
      | some uid =>
        cases periods with
        | none => cases amount <;> simp [recordPayment] at h
        | some ps =>
          cases amount with
          | absent => simp [recordPayment] at h
          | nonNumeric =>
            simp only [recordPayment] at h
            split at h
            · simp at h
            · split at h
              · simp at h
              · simp at h
          | num n =>
            simp only [recordPayment] at h
            split at h
            · simp at h
            · split at h
              · simp at h
              · split at h
                · simp at h
                · split at h
                  · simp at h
                  · simp only [Prod.mk.injEq, RecordPaymentResult.ok.injEq] at h
                    obtain ⟨⟨_, _, hupd, _⟩, _⟩ := h
                    intro u hu
                    rw [← hupd] at hu
                    obtain ⟨_, i, _, _, hui⟩ := rpLoop_updated_only uid _
                      (rpApply_nomatch now (pdq.getD now) pmq noteq bid uid)
                      (fun i => rfl) ps db.iurans u hu
                    rw [hui]
                    exact ⟨rfl, rfl⟩

/-- The mismatching request for the C10 witness: 60000 for one period. -/
def reqBadC10 : RecordPaymentReq :=
  { userId := some 4, amount := AmountVal.num 60000,
    periods := some ["2025-01"] }

/-- The valid request for the C10 witness: 50000 for one period. -/
def reqGoodC10 : RecordPaymentReq :=
  { userId := some 4, amount := AmountVal.num 50000,
    periods := some ["2025-01"] }

/-- The record [[iuranUnpaidC5]] (stored amount 42) after the successful
recording: amount overwritten to 50000, status paid. -/
def u50C10 : Iuran := rpApply 50 50 none none 7 iuranUnpaidC5

/-- The store [[dbC5]] after the successful recording. -/
def db50C10 : DB := { dbC5 with iurans := [u50C10] }

/-- Witness for C10: the mismatching amount 60000 for one period is
rejected leaving the store unchanged, and the successful call overwrites
the stored amount 42 with 50000. -/
theorem recordPayment_amount_rules_witness :
    (∃ msg, recordPayment dbC5 (some 7) reqBadC10 50 =
      (RecordPaymentResult.validationError msg, dbC5)) ∧
    recordPayment dbC5 (some 7) reqGoodC10 50 =
      (RecordPaymentResult.ok 1 0 [u50C10] [], db50C10) ∧
    (∀ u ∈ [u50C10], u.amount = REQUIRED_AMOUNT_PER_PERIOD ∧
      u.status = IuranStatus.paid) :=
  ⟨recordPayment_amount_rules.1 dbC5 7 4 ["2025-01"] (AmountVal.num 60000)
     none none none 50 userC5 (by decide) (by decide)
     (Or.inr (Or.inr ⟨60000, rfl, Or.inr (by decide)⟩)),
   by decide,
   recordPayment_amount_rules.2 dbC5 (some 7) reqGoodC10 50 1 0 [u50C10] []
     db50C10 (by decide)⟩

end RTBackend
